import Mathlib

/-!
EasyIPC — verification of spec claims against a shallow embedding

Shallow embedding of the EasyIPC C++ library (Client.cpp, Server.cpp,
NngSocket.cpp, Encryption/AesEaxEncryptionStrategy.cpp,
Encryption/NoEncryptionStrategy.cpp).  Pure computations become Lean
functions; stateful methods become explicit state-passing functions that
also return a trace of observable effects (socket closes, thread joins,
transport sends, log lines); external collaborators (nng transport calls,
Crypto++ AEAD core, nlohmann JSON parsing/dumping) are parameters of the
embedded functions, matching the spec's "external collaborator" boundary.
-/

namespace EasyIPC

/-- Minimal structured-value model of `nlohmann::json` values as used by
the library: objects with string keys, strings, plus the other atoms. -/
inductive Json where
  | null : Json
  | str : String → Json
  | num : Int → Json
  | boolean : Bool → Json
  | arr : List Json → Json
  | obj : List (String × Json) → Json
deriving Inhabited

/-! ## AES-EAX encryption strategy (AesEaxEncryptionStrategy.cpp)

Bytes are modelled as `List Nat`.  The Crypto++ `EAX<AES>` core is an
external collaborator: it is modelled as a structure `AeadCore` packaging
an authenticated-encryption function (returning ciphertext plus 16-byte
tag), an authenticated-decryption function (returning `none` on
authentication failure), the round-trip law and the ciphertext-length law
that the EAX mode provides. -/

/-- External AEAD core (`EAX<AES>` from Crypto++, default 16-byte tag):
`enc key nonce plain` is the ciphertext-with-tag, `dec key nonce cipher`
authenticates and decrypts, returning `none` exactly on authentication
failure. -/
structure AeadCore where
  enc : List Nat → List Nat → List Nat → List Nat
  dec : List Nat → List Nat → List Nat → Option (List Nat)
  dec_enc : ∀ k n p, dec k n (enc k n p) = some p
  enc_len : ∀ k n p, (enc k n p).length = p.length + 16

/-- State of an `AesEaxEncryptionStrategy` instance: the decoded key bytes
and whether an on-compromise callback has been installed. -/
structure AesEaxState where
  encryptionKey : List Nat
  callbackSet : Bool

/-- Key-length validity enforced by the `AesEaxEncryptionStrategy`
constructor: decoded key length 16, 24 or 32 bytes. -/
def validKeyLength (n : Nat) : Prop := n = 16 ∨ n = 24 ∨ n = 32

instance (n : Nat) : Decidable (validKeyLength n) := by
  unfold validKeyLength; infer_instance

/-- Embedding of `AesEaxEncryptionStrategy::encrypt`: draw a fresh 16-byte nonce
(modelled as the argument `nonce`, with its length as a hypothesis at use
sites), run authenticated encryption, and return `nonce ++ ciphertext+tag`. -/
def AesEax.encrypt (C : AeadCore) (st : AesEaxState) (nonce data : List Nat) : List Nat :=
  nonce ++ C.enc st.encryptionKey nonce data

/-- Result of one `decrypt` call: the outcome (a `SecurityError` text or
the plaintext), how many times the compromise callback was invoked during
the call, and whether the AEAD decryption core was invoked at all. -/
structure DecryptOut where
  result : Except String (List Nat)
  callbackCalls : Nat
  decryptAttempted : Bool
deriving Inhabited

/-- Embedding of `AesEaxEncryptionStrategy::decrypt`: inputs shorter than 32 bytes
(16-byte nonce + minimum 16-byte cipher) invoke the compromise callback
if set and fail without touching the AEAD core; otherwise the 16-byte
nonce prefix is split off and authenticated decryption runs, with
authentication failure again invoking the callback and failing. -/
def AesEax.decrypt (C : AeadCore) (st : AesEaxState) (data : List Nat) : DecryptOut :=
  if data.length < 16 + 16 then
    { result := .error "Invalid size"
      callbackCalls := if st.callbackSet then 1 else 0
      decryptAttempted := false }
  else
    let nonce := data.take 16
    let cipherText := data.drop 16
    match C.dec st.encryptionKey nonce cipherText with
    | some plainText =>
        { result := .ok plainText, callbackCalls := 0, decryptAttempted := true }
    | none =>
        { result := .error "Decryption failed"
          callbackCalls := if st.callbackSet then 1 else 0
          decryptAttempted := true }

/-- Embedding of `NoEncryptionStrategy::encrypt`: identity. -/
def NoEncryption.encrypt (data : List Nat) : List Nat := data

/-- Embedding of `NoEncryptionStrategy::decrypt`: identity. -/
def NoEncryption.decrypt (data : List Nat) : List Nat := data

/-- A concrete `AeadCore` used only to witness that the hypotheses of the
crypto theorems are satisfiable: the "ciphertext" is the plaintext with a
16-byte all-zero tag appended, and decryption checks that tag. -/
def toyAead : AeadCore where
  enc := fun _ _ p => p ++ List.replicate 16 0
  dec := fun _ _ c =>
    if 16 ≤ c.length ∧ c.drop (c.length - 16) = List.replicate 16 0 then
      some (c.take (c.length - 16))
    else none
  dec_enc := by
    intro k n p
    have hlen : (p ++ List.replicate 16 0).length = p.length + 16 := by simp
    have hdrop : (p ++ List.replicate 16 (0 : Nat)).drop p.length = List.replicate 16 0 :=
      List.drop_left p (List.replicate 16 0)
    have htake : (p ++ List.replicate 16 (0 : Nat)).take p.length = p :=
      List.take_left p (List.replicate 16 0)
    simp only [hlen, Nat.add_sub_cancel, hdrop, htake]
    simp
  enc_len := by intro k n p; simp

/-- C2: for every plaintext `p` and every `AesEaxEncryptionStrategy` whose
decoded key has valid length (16, 24 or 32 bytes), `decrypt (encrypt p)`
returns `p`: `encrypt` prepends a fresh 16-byte nonce to the authenticated
ciphertext+tag, and `decrypt` splits that 16-byte prefix back off before
authenticated decryption. -/
theorem aesEax_decrypt_encrypt_roundtrip (C : AeadCore) (st : AesEaxState)
    (nonce p : List Nat) (hn : nonce.length = 16)
    (_hk : validKeyLength st.encryptionKey.length) :
    (AesEax.decrypt C st (AesEax.encrypt C st nonce p)).result = .ok p := by
  unfold AesEax.encrypt AesEax.decrypt
  have hlen : (nonce ++ C.enc st.encryptionKey nonce p).length = p.length + 32 := by
    simp [hn, C.enc_len]; omega
  rw [if_neg (by omega)]
  have htake : (nonce ++ C.enc st.encryptionKey nonce p).take 16 = nonce := by
    rw [← hn]; exact List.take_left _ _
  have hdrop : (nonce ++ C.enc st.encryptionKey nonce p).drop 16 =
      C.enc st.encryptionKey nonce p := by
    rw [← hn]; exact List.drop_left _ _
  simp only [htake, hdrop, C.dec_enc]

/-- Witness for C2 at a concrete core, key, nonce and plaintext. -/
theorem aesEax_decrypt_encrypt_roundtrip_witness :
    (List.replicate 16 (0 : Nat)).length = 16 ∧
    validKeyLength (AesEaxState.mk (List.replicate 16 0) false).encryptionKey.length ∧
    (AesEax.decrypt toyAead ⟨List.replicate 16 0, false⟩
      (AesEax.encrypt toyAead ⟨List.replicate 16 0, false⟩
        (List.replicate 16 0) [1, 2, 3])).result = .ok [1, 2, 3] :=
  ⟨by decide, by decide,
    aesEax_decrypt_encrypt_roundtrip toyAead ⟨List.replicate 16 0, false⟩
      (List.replicate 16 0) [1, 2, 3] (by decide) (by decide)⟩

/-- C4: `decrypt` on input shorter than 32 bytes invokes the compromise
callback exactly once if one is set (zero times otherwise), fails with a
SecurityError without ever invoking the AEAD decryption core and returns
no plaintext; on an authentication failure of a well-sized input the same
callback-then-SecurityError behaviour holds. -/
theorem aesEax_decrypt_failure_behaviour (C : AeadCore) (st : AesEaxState)
    (data : List Nat) :
    (data.length < 32 →
      (AesEax.decrypt C st data).result = .error "Invalid size" ∧
      (AesEax.decrypt C st data).callbackCalls =
        (if st.callbackSet then 1 else 0) ∧
      (AesEax.decrypt C st data).decryptAttempted = false) ∧
    (32 ≤ data.length →
      C.dec st.encryptionKey (data.take 16) (data.drop 16) = none →
      (AesEax.decrypt C st data).result = .error "Decryption failed" ∧
      (AesEax.decrypt C st data).callbackCalls =
        (if st.callbackSet then 1 else 0)) := by
  constructor
  · intro h
    unfold AesEax.decrypt
    rw [if_pos (by omega)]
    exact ⟨rfl, rfl, rfl⟩
  · intro h hdec
    unfold AesEax.decrypt
    rw [if_neg (by omega)]
    simp [hdec]

/-- Witness for C4: an undersized input (empty) and a well-sized input
that fails authentication under the concrete core, with a callback set. -/
theorem aesEax_decrypt_failure_behaviour_witness :
    (([] : List Nat).length < 32 ∧
      (AesEax.decrypt toyAead ⟨List.replicate 16 0, true⟩ []).result =
        .error "Invalid size" ∧
      (AesEax.decrypt toyAead ⟨List.replicate 16 0, true⟩ []).callbackCalls = 1 ∧
      (AesEax.decrypt toyAead ⟨List.replicate 16 0, true⟩ []).decryptAttempted =
        false) ∧
    (32 ≤ (List.replicate 32 (1 : Nat)).length ∧
      toyAead.dec (List.replicate 16 0) ((List.replicate 32 (1 : Nat)).take 16)
        ((List.replicate 32 (1 : Nat)).drop 16) = none ∧
      (AesEax.decrypt toyAead ⟨List.replicate 16 0, true⟩
        (List.replicate 32 1)).result = .error "Decryption failed" ∧
      (AesEax.decrypt toyAead ⟨List.replicate 16 0, true⟩
        (List.replicate 32 1)).callbackCalls = 1) := by
  have h1 := (aesEax_decrypt_failure_behaviour toyAead
    ⟨List.replicate 16 0, true⟩ []).1 (by decide)
  have h2 := (aesEax_decrypt_failure_behaviour toyAead
    ⟨List.replicate 16 0, true⟩ (List.replicate 32 1)).2 (by decide) (by decide)
  refine ⟨⟨by decide, h1.1, ?_, h1.2.2⟩, ⟨by decide, by decide, h2.1, ?_⟩⟩
  · have := h1.2.1
    simpa using this
  · have := h2.2
    simpa using this

/-! ## Server request handling (Server.cpp, `Server::handleRequest`)

The envelope codec (`nlohmann::json` parse/dump) is an external
collaborator and is passed in as the `parse`/`dump` parameters; the
encryption strategy is modelled at the string level; the transport send
result is the `sendResult` parameter.  `handleRequest` returns the list of
its observable effects (log lines and reply sends) in program order; it is
a total function — the C++ try/catch structure is the explicit `match` on
the try-block outcome, so no exception escapes to the receive loop. -/

/-- String-level view of an `EncryptionStrategy` as used by Client/Server:
`decryptFn` may throw (modelled as `Except`), `encryptFn` is total. -/
structure StrategyModel where
  decryptFn : String → Except String String
  encryptFn : String → String

/-- The default success envelope used when a handler runs but returns no
value (`handlerResponse.value_or(...)` in `Server::handleRequest`). -/
def defaultSuccessEnvelope : Json :=
  .obj [("event", .str "__response__"),
        ("data", .obj [("status", .str "success")])]

/-- The reply synthesized when no handler is bound for the event. -/
def missingHandlerEnvelope (event : String) : Json :=
  .obj [("event", .str "__error__"),
        ("data", .obj [("message",
          .str ("Server has no handler bound for event: " ++ event))])]

/-- The reply built in the catch block when handling a request threw. -/
def handlerFaultEnvelope (what : String) : Json :=
  .obj [("event", .str "__response__"),
        ("data", .obj [("status", .str "error"), ("message", .str what)])]

/-- Extraction of `messageJson["event"]` (must be a string) and
`messageJson["data"]` from a parsed envelope; a non-object value or a
non-string event throws, a missing `data` key yields `null`. -/
def extractEnvelope : Json → Except String (String × Json)
  | .obj fields =>
    match fields.lookup "event" with
    | some (.str e) => .ok (e, (fields.lookup "data").getD .null)
    | _ => .error "type error: event is not a string"
  | _ => .error "type error: envelope is not an object"

/-- Per-instance server state relevant to request handling: the event
handler map (server handlers return an optional response value or throw)
and the optional encryption strategy. -/
structure ServerState where
  handlers : String → Option (Json → Except String (Option Json))
  strategy : Option StrategyModel

/-- Observable effects of `Server::handleRequest`, in program order. -/
inductive ServerEffect where
  | sendReply (payload : String)
  | logMissingHandler (event : String)
  | logException (what : String)
  | logSendFailure
deriving DecidableEq

/-- The outbound wire form of a reply: encrypted iff a strategy is set. -/
def wireOf (st : ServerState) (s : String) : String :=
  match st.strategy with
  | some m => m.encryptFn s
  | none => s

/-- The try block of `Server::handleRequest` up to building `responseJson`:
decrypt if a strategy is set, parse, extract the envelope, route to the
handler (a missing handler synthesizes the error-tagged envelope and logs;
a present handler may throw, propagating to the catch block; a present
handler returning no value falls back to the default success envelope). -/
def Server.handleRequestTry (st : ServerState)
    (parse : String → Except String Json) (message : String) :
    Except String (Json × List ServerEffect) :=
  match (match st.strategy with
         | some s => s.decryptFn message
         | none => .ok message : Except String String) with
  | .error e => .error e
  | .ok plainMessage =>
    match parse plainMessage with
    | .error e => .error e
    | .ok messageJson =>
      match extractEnvelope messageJson with
      | .error e => .error e
      | .ok (event, data) =>
        match st.handlers event with
        | some h =>
          match h data with
          | .error e => .error e
          | .ok r => .ok (r.getD defaultSuccessEnvelope, [])
        | none => .ok (missingHandlerEnvelope event, [.logMissingHandler event])

/-- Embedding of `Server::handleRequest`: run the try block; on success encode,
optionally encrypt and send the response (a failing send is logged, not
retried); on any thrown exception the catch block logs it, builds the
error-tagged response and sends it the same way.  Total by construction:
no exception propagates to the receive loop. -/
def Server.handleRequest (st : ServerState)
    (parse : String → Except String Json) (dump : Json → String)
    (sendResult : Int) (message : String) : List ServerEffect :=
  match Server.handleRequestTry st parse message with
  | .ok (responseJson, logs) =>
      logs ++ [ServerEffect.sendReply (wireOf st (dump responseJson))] ++
        (if sendResult ≠ 0 then [ServerEffect.logSendFailure] else [])
  | .error what =>
      ServerEffect.logException what ::
        ServerEffect.sendReply (wireOf st (dump (handlerFaultEnvelope what))) ::
        (if sendResult ≠ 0 then [ServerEffect.logSendFailure] else [])

/-- Holds (as `true`) exactly on reply-send effects. -/
def ServerEffect.isSend : ServerEffect → Bool
  | .sendReply _ => true
  | _ => false

/-- The try block only ever accumulates the missing-handler log before the
reply is sent: its log list is `[]` or a single missing-handler entry. -/
theorem handleRequestTry_logs (st : ServerState)
    (parse : String → Except String Json) (message : String)
    (resp : Json) (logs : List ServerEffect)
    (h : Server.handleRequestTry st parse message = .ok (resp, logs)) :
    logs = [] ∨ ∃ e, logs = [ServerEffect.logMissingHandler e] := by
  unfold Server.handleRequestTry at h
  rcases hd : (match st.strategy with
               | some s => s.decryptFn message
               | none => .ok message : Except String String) with e | plain <;>
    simp [hd] at h
  rcases hp : parse plain with e | messageJson <;> simp [hp] at h
  rcases hx : extractEnvelope messageJson with e | ⟨event, data⟩ <;> simp [hx] at h
  rcases hh : st.handlers event with _ | hdl <;> simp [hh] at h
  · right
    exact ⟨event, h.2.symm⟩
  · rcases hr : hdl data with e | r <;> simp [hr] at h
    left
    exact h.2

/-- C1: for every request, `Server::handleRequest` sends exactly one reply
on the reply endpoint — whether the handler succeeds, no handler is bound
(the error-tagged envelope is synthesized), the handler throws (caught and
converted to an error-tagged response), or the request is malformed; a
failure of the final send is logged and never retried, and `handleRequest`
is total, so no exception propagates to the receive loop. -/
theorem server_handleRequest_exactly_one_reply (st : ServerState)
    (parse : String → Except String Json) (dump : Json → String)
    (sendResult : Int) (message : String) :
    ((Server.handleRequest st parse dump sendResult message).filter
        ServerEffect.isSend).length = 1 ∧
    (sendResult ≠ 0 →
      ServerEffect.logSendFailure ∈
        Server.handleRequest st parse dump sendResult message) := by
  unfold Server.handleRequest
  rcases htry : Server.handleRequestTry st parse message with what | ⟨resp, logs⟩
  · refine ⟨?_, fun h => ?_⟩
    · by_cases hc : sendResult ≠ 0 <;> simp [hc, ServerEffect.isSend]
    · simp [h]
  · have hlogs : logs.filter ServerEffect.isSend = [] := by
      rcases handleRequestTry_logs st parse message resp logs htry with h | ⟨e, h⟩ <;>
        simp [h, ServerEffect.isSend]
    refine ⟨?_, fun h => ?_⟩
    · by_cases hc : sendResult ≠ 0 <;>
        simp [hc, List.filter_append, hlogs, ServerEffect.isSend]
    · simp [h]

/-- Witness for C1's send-failure clause at a concrete server state,
request and failing send result. -/
theorem server_handleRequest_exactly_one_reply_witness :
    ((Server.handleRequest ⟨fun _ => none, none⟩ (fun _ => .error "parse error")
        (fun _ => "") 1 "m").filter ServerEffect.isSend).length = 1 ∧
    ((1 : Int) ≠ 0 ∧
      ServerEffect.logSendFailure ∈
        Server.handleRequest ⟨fun _ => none, none⟩ (fun _ => .error "parse error")
          (fun _ => "") 1 "m") := by
  have h := server_handleRequest_exactly_one_reply ⟨fun _ => none, none⟩
    (fun _ => .error "parse error") (fun _ => "") 1 "m"
  exact ⟨h.1, by decide, h.2 (by decide)⟩

/-- C10: when a registered handler runs without throwing but returns no
value, `Server::handleRequest` replies with the fixed default success
envelope with event `__response__` and data `status: success`; the
missing-handler reply instead has event `__error__` and a data message
naming the unbound event, a different shape. -/
theorem server_handleRequest_default_and_missing_shapes
    (st : ServerState) (parse : String → Except String Json)
    (dump : Json → String) (sendResult : Int) (message : String)
    (j d : Json) (e : String)
    (hstrat : st.strategy = none) (hsend : sendResult = 0)
    (hparse : parse message = .ok j)
    (hx : extractEnvelope j = .ok (e, d)) :
    (∀ h, st.handlers e = some h → h d = .ok none →
      Server.handleRequest st parse dump sendResult message =
        [ServerEffect.sendReply (dump defaultSuccessEnvelope)]) ∧
    (st.handlers e = none →
      Server.handleRequest st parse dump sendResult message =
        [ServerEffect.logMissingHandler e,
         ServerEffect.sendReply (dump (missingHandlerEnvelope e))]) ∧
    defaultSuccessEnvelope =
      Json.obj [("event", .str "__response__"),
                ("data", .obj [("status", .str "success")])] ∧
    missingHandlerEnvelope e =
      Json.obj [("event", .str "__error__"),
                ("data", .obj [("message",
                  .str ("Server has no handler bound for event: " ++ e))])] := by
  refine ⟨?_, ?_, rfl, rfl⟩
  · intro h hh hr
    unfold Server.handleRequest Server.handleRequestTry
    simp [hstrat, hparse, hx, hh, hr, wireOf, hsend]
  · intro hh
    unfold Server.handleRequest Server.handleRequestTry
    simp [hstrat, hparse, hx, hh, wireOf, hsend]

/-- A handler map binding every event to a handler that returns no value,
used to witness C10's default-success clause. -/
def alwaysEmptyHandlers : String → Option (Json → Except String (Option Json)) :=
  fun _ => some (fun _ => .ok none)

/-- A concrete parsed request envelope for the C10 witness. -/
def pingEnvelopeJson : Json := .obj [("event", .str "ping"), ("data", .null)]

/-- A parse collaborator always returning the concrete envelope. -/
def constParse : String → Except String Json := fun _ => .ok pingEnvelopeJson

/-- A dump collaborator returning a fixed serialization. -/
def constDump : Json → String := fun _ => "dumped"

/-- Witness for C10 at concrete server states: one with an
empty-result handler bound, one with no handler bound. -/
theorem server_handleRequest_default_and_missing_shapes_witness :
    constParse "m" = .ok pingEnvelopeJson ∧
    extractEnvelope pingEnvelopeJson = .ok ("ping", .null) ∧
    Server.handleRequest ⟨alwaysEmptyHandlers, none⟩ constParse constDump 0 "m" =
      [ServerEffect.sendReply (constDump defaultSuccessEnvelope)] ∧
    Server.handleRequest ⟨fun _ => none, none⟩ constParse constDump 0 "m" =
      [ServerEffect.logMissingHandler "ping",
       ServerEffect.sendReply (constDump (missingHandlerEnvelope "ping"))] := by
  refine ⟨rfl, rfl, ?_, ?_⟩
  · exact (server_handleRequest_default_and_missing_shapes
      ⟨alwaysEmptyHandlers, none⟩ constParse constDump 0 "m"
      pingEnvelopeJson .null "ping" rfl rfl rfl rfl).1
      (fun _ => .ok none) rfl rfl
  · exact ((server_handleRequest_default_and_missing_shapes
      ⟨fun _ => none, none⟩ constParse constDump 0 "m"
      pingEnvelopeJson .null "ping" rfl rfl rfl rfl).2).1 rfl

/-! ## Client connect retry loop (Client.cpp, `Client::connect`)

The nng dial calls are external collaborators, modelled as oracles giving
the dial result for each attempt (`dialSubAt`/`dialReqAt`, indexed by the
0-based attempt number), with `strerror` the transport's error-text map.
The loop's observable effects (dials and sleeps) are returned as a trace
in program order. -/

/-- The channel-specific last-error state (`lastSubDialError`,
`lastReqDialError` members of `Client`), empty at construction. -/
structure ConnectErrors where
  lastSubDialError : String
  lastReqDialError : String
deriving DecidableEq

/-- Observable effects of the connect retry loop, in program order. -/
inductive ConnectEvent where
  | dialSub (attempt : Nat)
  | dialReq (attempt : Nat)
  | sleep (ms : Nat)
deriving DecidableEq

/-- The `while (attempts < maxRetries)` retry loop of `Client::connect`:
each attempt dials the SUB socket; on success it dials the REQ socket; if
both succeed the loop breaks with success, otherwise the failing channel's
last error is recorded, and after incrementing `attempts` the loop sleeps
`retryDelayMS` only if another attempt remains.  `fuel` is the number of
remaining attempts (`maxRetries - attempts`). -/
def Client.connectLoop (dialSubAt dialReqAt : Nat → Int) (strerror : Int → String)
    (retryDelayMS : Nat) :
    Nat → Nat → ConnectErrors → Bool × ConnectErrors × List ConnectEvent
  | 0, _, errs => (false, errs, [])
  | fuel + 1, attempts, errs =>
    if dialSubAt attempts = 0 then
      if dialReqAt attempts = 0 then
        (true, errs, [.dialSub attempts, .dialReq attempts])
      else
        let errs2 := { errs with lastReqDialError := strerror (dialReqAt attempts) }
        let rest := Client.connectLoop dialSubAt dialReqAt strerror retryDelayMS
          fuel (attempts + 1) errs2
        (rest.1, rest.2.1,
          [ConnectEvent.dialSub attempts, ConnectEvent.dialReq attempts] ++
            (if fuel ≠ 0 then [ConnectEvent.sleep retryDelayMS] else []) ++ rest.2.2)
    else
      let errs2 := { errs with lastSubDialError := strerror (dialSubAt attempts) }
      let rest := Client.connectLoop dialSubAt dialReqAt strerror retryDelayMS
        fuel (attempts + 1) errs2
      (rest.1, rest.2.1,
        [ConnectEvent.dialSub attempts] ++
          (if fuel ≠ 0 then [ConnectEvent.sleep retryDelayMS] else []) ++ rest.2.2)

/-- The aggregated failure message thrown when retries are exhausted
(the `fmt::format` call in `Client::connect`). -/
def connectFailMessage (maxRetries : Nat) (errs : ConnectErrors) : String :=
  "Failed to connect to server after " ++ toString maxRetries ++
    " retries. Last sub socket dial error: " ++ errs.lastSubDialError ++
    ", Last req socket dial error: " ++ errs.lastReqDialError

/-- The dial/retry portion of `Client::connect`: run the retry loop from
attempt 0 with both last-error strings empty; on exhaustion throw the
aggregated error. -/
def Client.connect (dialSubAt dialReqAt : Nat → Int) (strerror : Int → String)
    (retryDelayMS maxRetries : Nat) : Except String Unit × List ConnectEvent :=
  let out := Client.connectLoop dialSubAt dialReqAt strerror retryDelayMS
    maxRetries 0 ⟨"", ""⟩
  if out.1 then (.ok (), out.2.2)
  else (.error (connectFailMessage maxRetries out.2.1), out.2.2)

/-- One failing attempt's update of the channel last-error state: a
failed SUB dial records that channel's error, a successful SUB dial
followed by a failed REQ dial records the REQ channel's error. -/
def connectStep (dialSubAt dialReqAt : Nat → Int) (strerror : Int → String)
    (acc : ConnectErrors) (j : Nat) : ConnectErrors :=
  if dialSubAt j = 0 then
    if dialReqAt j = 0 then acc
    else { acc with lastReqDialError := strerror (dialReqAt j) }
  else { acc with lastSubDialError := strerror (dialSubAt j) }

/-- The last-error accumulation of the retry loop over a list of attempt
indices. -/
def accumErrors (dialSubAt dialReqAt : Nat → Int) (strerror : Int → String)
    (errs : ConnectErrors) (js : List Nat) : ConnectErrors :=
  js.foldl (connectStep dialSubAt dialReqAt strerror) errs

/-- The effects of one failing attempt `j` out of `total`: a SUB dial, a
REQ dial only if the SUB dial succeeded, and a sleep only if another
attempt remains. -/
def attemptTrace (dialSubAt : Nat → Int) (retryDelayMS total j : Nat) :
    List ConnectEvent :=
  [ConnectEvent.dialSub j] ++
    (if dialSubAt j = 0 then [ConnectEvent.dialReq j] else []) ++
    (if j + 1 < total then [ConnectEvent.sleep retryDelayMS] else [])

/-- Closed form of the retry loop when every attempt fails. -/
theorem connectLoop_fail_closed_form (dialSubAt dialReqAt : Nat → Int)
    (strerror : Int → String) (retryDelayMS : Nat) (fuel : Nat) :
    ∀ (attempts total : Nat) (errs : ConnectErrors),
    total = attempts + fuel →
    (∀ j, ¬(dialSubAt j = 0 ∧ dialReqAt j = 0)) →
    Client.connectLoop dialSubAt dialReqAt strerror retryDelayMS fuel attempts errs =
      (false,
       accumErrors dialSubAt dialReqAt strerror errs (List.range' attempts fuel),
       (List.range' attempts fuel).flatMap
         (attemptTrace dialSubAt retryDelayMS total)) := by
  induction fuel with
  | zero =>
    intro attempts total errs _ _
    simp [Client.connectLoop, accumErrors]
  | succ n ih =>
    intro attempts total errs htot hfail
    have hrange : List.range' attempts (n + 1) =
        attempts :: List.range' (attempts + 1) n := List.range'_succ attempts n 1
    have hsleep : ((if n ≠ 0 then [ConnectEvent.sleep retryDelayMS] else []) :
          List ConnectEvent) =
        (if attempts + 1 < total then [ConnectEvent.sleep retryDelayMS] else []) := by
      by_cases hn : n = 0
      · subst hn
        rw [if_neg (by simp), if_neg (by omega)]
      · rw [if_pos hn, if_pos (by omega)]
    by_cases hds : dialSubAt attempts = 0
    · have hdr : dialReqAt attempts ≠ 0 := fun h => hfail attempts ⟨hds, h⟩
      have ihr := ih (attempts + 1) total
        { errs with lastReqDialError := strerror (dialReqAt attempts) }
        (by omega) hfail
      simp [Client.connectLoop, hds, hdr, ihr, hrange, accumErrors,
        connectStep, attemptTrace, hsleep]
    · have ihr := ih (attempts + 1) total
        { errs with lastSubDialError := strerror (dialSubAt attempts) }
        (by omega) hfail
      simp [Client.connectLoop, hds, ihr, hrange, accumErrors,
        connectStep, attemptTrace, hsleep]

/-- Holds (as `true`) exactly on SUB-dial events (one per loop attempt). -/
def ConnectEvent.isDialSub : ConnectEvent → Bool
  | .dialSub _ => true
  | _ => false

/-- Holds (as `true`) exactly on sleep events. -/
def ConnectEvent.isSleep : ConnectEvent → Bool
  | .sleep _ => true
  | _ => false

/-- Each failing attempt's trace holds exactly one SUB dial. -/
theorem attemptTrace_filter_dialSub (ds : Nat → Int) (delay total j : Nat) :
    ((attemptTrace ds delay total j).filter ConnectEvent.isDialSub).length = 1 := by
  unfold attemptTrace
  by_cases h1 : ds j = 0 <;> by_cases h2 : j + 1 < total <;>
    simp [h1, h2, ConnectEvent.isDialSub]

/-- Each failing attempt's trace sleeps exactly when a retry remains. -/
theorem attemptTrace_filter_sleep (ds : Nat → Int) (delay total j : Nat) :
    ((attemptTrace ds delay total j).filter ConnectEvent.isSleep).length =
      if j + 1 < total then 1 else 0 := by
  unfold attemptTrace
  by_cases h1 : ds j = 0 <;> by_cases h2 : j + 1 < total <;>
    simp [h1, h2, ConnectEvent.isSleep]

/-- A REQ dial appears in attempt `a`'s trace iff it is for attempt `a`
and the SUB dial of that attempt succeeded. -/
theorem attemptTrace_dialReq_mem (ds : Nat → Int) (delay total a j : Nat) :
    (ConnectEvent.dialReq j ∈ attemptTrace ds delay total a) ↔
      (j = a ∧ ds a = 0) := by
  unfold attemptTrace
  by_cases h1 : ds a = 0 <;> by_cases h2 : a + 1 < total <;>
    simp [h1, h2]

/-- The failing retry trace contains exactly one SUB dial per attempt. -/
theorem fail_trace_dial_count (ds : Nat → Int) (delay : Nat) :
    ∀ (n a total : Nat),
    (((List.range' a n).flatMap (attemptTrace ds delay total)).filter
        ConnectEvent.isDialSub).length = n := by
  intro n
  induction n with
  | zero => intro a total; rfl
  | succ m ih =>
    intro a total
    rw [List.range'_succ, List.flatMap_cons, List.filter_append,
      List.length_append, ih, attemptTrace_filter_dialSub]
    omega

/-- The failing retry trace sleeps after every attempt but the last. -/
theorem fail_trace_sleep_count (ds : Nat → Int) (delay : Nat) :
    ∀ (n a total : Nat), total = a + n →
    (((List.range' a n).flatMap (attemptTrace ds delay total)).filter
        ConnectEvent.isSleep).length = n - 1 := by
  intro n
  induction n with
  | zero => intro a total _; rfl
  | succ m ih =>
    intro a total htot
    rw [List.range'_succ, List.flatMap_cons, List.filter_append,
      List.length_append, ih (a + 1) total (by omega), attemptTrace_filter_sleep]
    by_cases hm : m = 0
    · rw [if_neg (by omega)]; omega
    · rw [if_pos (by omega)]; omega

/-- A REQ dial for attempt `j` appears in the failing retry trace iff `j`
is one of the attempts and that attempt's SUB dial succeeded. -/
theorem fail_trace_dialReq_mem (ds : Nat → Int) (delay : Nat) :
    ∀ (n a total j : Nat),
    (ConnectEvent.dialReq j ∈
        (List.range' a n).flatMap (attemptTrace ds delay total)) ↔
      (a ≤ j ∧ j < a + n ∧ ds j = 0) := by
  intro n
  induction n with
  | zero =>
    intro a total j
    simp only [List.range', List.flatMap_nil, List.not_mem_nil, false_iff]
    intro h
    omega
  | succ m ih =>
    intro a total j
    rw [List.range'_succ, List.flatMap_cons, List.mem_append, ih,
      attemptTrace_dialReq_mem]
    constructor
    · rintro (⟨rfl, h⟩ | ⟨h1, h2, h3⟩)
      · exact ⟨le_rfl, by omega, h⟩
      · exact ⟨by omega, by omega, h3⟩
    · rintro ⟨h1, h2, h3⟩
      by_cases hj : j = a
      · exact Or.inl ⟨hj, hj ▸ h3⟩
      · exact Or.inr ⟨by omega, by omega, h3⟩

/-- Last SUB-channel dial error text recorded over `n` failing attempts. -/
def lastSubError (ds : Nat → Int) (strerror : Int → String) (n : Nat) : String :=
  (List.range' 0 n).foldl
    (fun acc j => if ds j ≠ 0 then strerror (ds j) else acc) ""

/-- Last REQ-channel dial error text recorded over `n` failing attempts
(the REQ socket is only dialed when the SUB dial succeeded). -/
def lastReqError (ds dr : Nat → Int) (strerror : Int → String) (n : Nat) : String :=
  (List.range' 0 n).foldl
    (fun acc j => if ds j = 0 ∧ dr j ≠ 0 then strerror (dr j) else acc) ""

/-- Splitting `accumErrors` at a cons. -/
theorem accumErrors_cons (ds dr : Nat → Int) (strerror : Int → String)
    (errs : ConnectErrors) (a : Nat) (t : List Nat) :
    accumErrors ds dr strerror errs (a :: t) =
      accumErrors ds dr strerror (connectStep ds dr strerror errs a) t := rfl

/-- One step's effect on the SUB channel's last error. -/
theorem connectStep_lastSub (ds dr : Nat → Int) (strerror : Int → String)
    (acc : ConnectErrors) (j : Nat) :
    (connectStep ds dr strerror acc j).lastSubDialError =
      if ds j ≠ 0 then strerror (ds j) else acc.lastSubDialError := by
  unfold connectStep
  by_cases h1 : ds j = 0
  · by_cases h2 : dr j = 0 <;> simp [h1, h2]
  · simp [h1]

/-- One step's effect on the REQ channel's last error. -/
theorem connectStep_lastReq (ds dr : Nat → Int) (strerror : Int → String)
    (acc : ConnectErrors) (j : Nat) :
    (connectStep ds dr strerror acc j).lastReqDialError =
      if ds j = 0 ∧ dr j ≠ 0 then strerror (dr j) else acc.lastReqDialError := by
  unfold connectStep
  by_cases h1 : ds j = 0
  · by_cases h2 : dr j = 0 <;> simp [h1, h2]
  · simp [h1]

/-- The loop's error accumulation decomposes per channel: the final SUB
last-error string is the fold keeping the most recent SUB-dial failure. -/
theorem accumErrors_lastSub (ds dr : Nat → Int) (strerror : Int → String) :
    ∀ (js : List Nat) (errs : ConnectErrors),
    (accumErrors ds dr strerror errs js).lastSubDialError =
      js.foldl (fun acc j => if ds j ≠ 0 then strerror (ds j) else acc)
        errs.lastSubDialError := by
  intro js
  induction js with
  | nil => intro errs; rfl
  | cons a t ih =>
    intro errs
    rw [accumErrors_cons, ih, connectStep_lastSub, List.foldl_cons]

/-- The final REQ last-error string is the fold keeping the most recent
REQ-dial failure (observed only when the SUB dial succeeded). -/
theorem accumErrors_lastReq (ds dr : Nat → Int) (strerror : Int → String) :
    ∀ (js : List Nat) (errs : ConnectErrors),
    (accumErrors ds dr strerror errs js).lastReqDialError =
      js.foldl (fun acc j => if ds j = 0 ∧ dr j ≠ 0 then strerror (dr j) else acc)
        errs.lastReqDialError := by
  intro js
  induction js with
  | nil => intro errs; rfl
  | cons a t ih =>
    intro errs
    rw [accumErrors_cons, ih, connectStep_lastReq, List.foldl_cons]

/-- C3: when every dial attempt fails, `Client::connect` performs exactly
`maxRetries` attempts (each dialling the subscribe endpoint first and the
request endpoint only when the subscribe dial succeeded), sleeps
`retryDelayMs` between consecutive attempts but not after the last, and
fails with the aggregated error message referencing the last failure
recorded on each of the two channels. -/
theorem client_connect_retry_exhaustion (dialSubAt dialReqAt : Nat → Int)
    (strerror : Int → String) (retryDelayMS maxRetries : Nat)
    (hfail : ∀ j, ¬(dialSubAt j = 0 ∧ dialReqAt j = 0)) :
    (Client.connect dialSubAt dialReqAt strerror retryDelayMS maxRetries).1 =
      .error (connectFailMessage maxRetries
        ⟨lastSubError dialSubAt strerror maxRetries,
         lastReqError dialSubAt dialReqAt strerror maxRetries⟩) ∧
    ((Client.connect dialSubAt dialReqAt strerror retryDelayMS
        maxRetries).2.filter ConnectEvent.isDialSub).length = maxRetries ∧
    ((Client.connect dialSubAt dialReqAt strerror retryDelayMS
        maxRetries).2.filter ConnectEvent.isSleep).length = maxRetries - 1 ∧
    (∀ j, ConnectEvent.dialReq j ∈
        (Client.connect dialSubAt dialReqAt strerror retryDelayMS maxRetries).2 ↔
      (j < maxRetries ∧ dialSubAt j = 0)) := by
  have hclosed := connectLoop_fail_closed_form dialSubAt dialReqAt strerror
    retryDelayMS maxRetries 0 maxRetries ⟨"", ""⟩ (by omega) hfail
  have hacc : accumErrors dialSubAt dialReqAt strerror ⟨"", ""⟩
      (List.range' 0 maxRetries) =
      ⟨lastSubError dialSubAt strerror maxRetries,
       lastReqError dialSubAt dialReqAt strerror maxRetries⟩ := by
    have h1 := accumErrors_lastSub dialSubAt dialReqAt strerror
      (List.range' 0 maxRetries) ⟨"", ""⟩
    have h2 := accumErrors_lastReq dialSubAt dialReqAt strerror
      (List.range' 0 maxRetries) ⟨"", ""⟩
    cases hx : accumErrors dialSubAt dialReqAt strerror ⟨"", ""⟩
      (List.range' 0 maxRetries)
    rw [hx] at h1 h2
    simp only [lastSubError, lastReqError]
    exact congrArg₂ ConnectErrors.mk h1 h2
  refine ⟨?_, ?_, ?_, ?_⟩
  · unfold Client.connect
    rw [hclosed]
    simp only [Bool.false_eq_true, if_false]
    rw [hacc]
  · unfold Client.connect
    rw [hclosed]
    simp only [Bool.false_eq_true, if_false]
    exact fail_trace_dial_count dialSubAt retryDelayMS maxRetries 0 maxRetries
  · unfold Client.connect
    rw [hclosed]
    simp only [Bool.false_eq_true, if_false]
    exact fail_trace_sleep_count dialSubAt retryDelayMS maxRetries 0 maxRetries
      (by omega)
  · intro j
    unfold Client.connect
    rw [hclosed]
    simp only [Bool.false_eq_true, if_false]
    rw [fail_trace_dialReq_mem]
    constructor
    · rintro ⟨_, h2, h3⟩; exact ⟨by omega, h3⟩
    · rintro ⟨h1, h2⟩; exact ⟨by omega, by omega, h2⟩

/-- Witness for C3 at concrete dial oracles that always fail. -/
theorem client_connect_retry_exhaustion_witness :
    (∀ j : Nat, ¬((fun _ => (1 : Int)) j = 0 ∧ (fun _ => (1 : Int)) j = 0)) ∧
    (Client.connect (fun _ => 1) (fun _ => 1) (fun i => toString i) 5 2).1 =
      .error (connectFailMessage 2
        ⟨lastSubError (fun _ => 1) (fun i => toString i) 2,
         lastReqError (fun _ => 1) (fun _ => 1) (fun i => toString i) 2⟩) ∧
    ((Client.connect (fun _ => 1) (fun _ => 1) (fun i => toString i) 5
        2).2.filter ConnectEvent.isDialSub).length = 2 ∧
    ((Client.connect (fun _ => 1) (fun _ => 1) (fun i => toString i) 5
        2).2.filter ConnectEvent.isSleep).length = 1 := by
  have hfail : ∀ j : Nat,
      ¬((fun _ => (1 : Int)) j = 0 ∧ (fun _ => (1 : Int)) j = 0) := by
    intro j h
    simp at h
  have h := client_connect_retry_exhaustion (fun _ => 1) (fun _ => 1)
    (fun i => toString i) 5 2 hfail
  exact ⟨hfail, h.1, h.2.1, h.2.2.1⟩

/-! ## Socket handle and shutdown (NngSocket.cpp; `Client::shutdown`,
`Server::shutdown`)

`NngSocket::close` is guarded by the open-state flag, so a handle is never
closed twice.  Both shutdowns share the same shape: under the shutdown
lock, act only if the running flag is set — flip it, close both sockets,
join the receive thread if joinable, clear the connected/started flag.
The model returns the new state plus the observable effects (transport
closes, thread join). -/

/-- The open-state flag of an `NngSocket` wrapper. -/
structure NngSocket where
  isOpen : Bool
deriving DecidableEq

/-- Embedding of `NngSocket::close`: idempotent — calls `nng_close` (signalled by the
returned Boolean) only when currently open. -/
def NngSocket.close (s : NngSocket) : NngSocket × Bool :=
  if s.isOpen then ({ isOpen := false }, true) else (s, false)

/-- Lifecycle state shared by Client and Server: running flag, the two
socket handles (SUB/REQ for the client, PUB/REP for the server), whether
the receive thread is joinable, and the connected (client) / started
(server) flag. -/
structure LifecycleState where
  isRunning : Bool
  firstSocket : NngSocket
  secondSocket : NngSocket
  threadJoinable : Bool
  connectedFlag : Bool
deriving DecidableEq

/-- Observable effects of one shutdown call. -/
inductive ShutdownEffect where
  | closeFirstSocket
  | closeSecondSocket
  | joinThread
deriving DecidableEq

/-- Embedding of `Client::shutdown`: under the shutdown mutex, act only if running —
clear the running flag, close both sockets, join the receive thread if
joinable, clear `connected`. -/
def Client.shutdown (s : LifecycleState) : LifecycleState × List ShutdownEffect :=
  if s.isRunning then
    ({ isRunning := false,
       firstSocket := s.firstSocket.close.1,
       secondSocket := s.secondSocket.close.1,
       threadJoinable := false,
       connectedFlag := false },
     (if s.firstSocket.close.2 then [ShutdownEffect.closeFirstSocket] else []) ++
       (if s.secondSocket.close.2 then [ShutdownEffect.closeSecondSocket] else []) ++
       (if s.threadJoinable then [ShutdownEffect.joinThread] else []))
  else (s, [])

/-- Embedding of `Server::shutdown`: same guarded pattern as `Client::shutdown`, with
`isStarted` as the connected flag. -/
def Server.shutdown (s : LifecycleState) : LifecycleState × List ShutdownEffect :=
  if s.isRunning then
    ({ isRunning := false,
       firstSocket := s.firstSocket.close.1,
       secondSocket := s.secondSocket.close.1,
       threadJoinable := false,
       connectedFlag := false },
     (if s.firstSocket.close.2 then [ShutdownEffect.closeFirstSocket] else []) ++
       (if s.secondSocket.close.2 then [ShutdownEffect.closeSecondSocket] else []) ++
       (if s.threadJoinable then [ShutdownEffect.joinThread] else []))
  else (s, [])

/-- C5: `shutdown` on a Client or Server is idempotent — a second call
(explicit or from the destructor) sees the running flag false, changes no
state and produces no effects (no socket close, no join, flags
unchanged); on an instance that never connected/served (running flag
false) the first call is likewise a no-op; the background thread is
joined at most once per shutdown call. -/
theorem shutdown_idempotent (s : LifecycleState) :
    (Client.shutdown (Client.shutdown s).1 = ((Client.shutdown s).1, []) ∧
     Server.shutdown (Server.shutdown s).1 = ((Server.shutdown s).1, [])) ∧
    (s.isRunning = false →
      Client.shutdown s = (s, []) ∧ Server.shutdown s = (s, [])) ∧
    ((Client.shutdown s).2.count ShutdownEffect.joinThread ≤ 1 ∧
     (Server.shutdown s).2.count ShutdownEffect.joinThread ≤ 1) := by
  by_cases hr : s.isRunning
  · refine ⟨⟨?_, ?_⟩, fun h => absurd hr (by simp [h]), ?_, ?_⟩ <;>
      simp [Client.shutdown, Server.shutdown, hr, NngSocket.close] <;>
      by_cases h1 : s.firstSocket.isOpen <;>
      by_cases h2 : s.secondSocket.isOpen <;>
      by_cases h3 : s.threadJoinable <;>
      simp [h1, h2, h3, List.count_append]
  · refine ⟨⟨?_, ?_⟩, fun _ => ⟨?_, ?_⟩, ?_, ?_⟩ <;>
      simp [Client.shutdown, Server.shutdown, hr]

/-- Witness for C5 at a concrete running state. -/
theorem shutdown_idempotent_witness :
    (LifecycleState.mk false ⟨false⟩ ⟨false⟩ false false).isRunning = false ∧
    Client.shutdown (LifecycleState.mk false ⟨false⟩ ⟨false⟩ false false) =
      (LifecycleState.mk false ⟨false⟩ ⟨false⟩ false false, []) ∧
    Client.shutdown
        (Client.shutdown (LifecycleState.mk true ⟨true⟩ ⟨true⟩ true true)).1 =
      ((Client.shutdown (LifecycleState.mk true ⟨true⟩ ⟨true⟩ true true)).1, []) := by
  refine ⟨rfl, ?_, ?_⟩
  · exact ((shutdown_idempotent
      (LifecycleState.mk false ⟨false⟩ ⟨false⟩ false false)).2.1 rfl).1
  · exact (shutdown_idempotent (LifecycleState.mk true ⟨true⟩ ⟨true⟩ true true)).1.1

/-! ## Client emit (Client.cpp, `Client::emit`)

The transport send/receive results are oracle parameters; the trace lists
the transport operations actually performed, so "no I/O attempted" is the
empty trace. -/

/-- Per-call client state relevant to `emit`: the `connected` flag and
the optional encryption strategy. -/
structure ClientState where
  connected : Bool
  strategy : Option StrategyModel

/-- Transport operations performed by one `emit` call, in order. -/
inductive EmitEffect where
  | sendRequest (payload : String)
  | recvReply
deriving DecidableEq

/-- Embedding of `Client::emit`: throw immediately if not connected (before building
the envelope or touching the transport); otherwise, under the request
mutex, build the envelope, optionally encrypt, send, block for exactly one
reply, optionally decrypt, parse, and return the response; any transport,
security or parse failure surfaces to the caller. -/
def Client.emit (st : ClientState) (parse : String → Except String Json)
    (dump : Json → String) (sendResult : Int) (recvResult : Int × String)
    (event : String) (data : Json) : Except String Json × List EmitEffect :=
  if st.connected = false then
    (.error "Client is not connected. Cant emit.", [])
  else
    let messageJson := Json.obj [("event", .str event), ("data", data)]
    let message := match st.strategy with
      | some s => s.encryptFn (dump messageJson)
      | none => dump messageJson
    if sendResult ≠ 0 then
      (.error "Failed to send request", [.sendRequest message])
    else if recvResult.1 ≠ 0 then
      (.error "Failed to receive response", [.sendRequest message, .recvReply])
    else
      match st.strategy with
      | some s =>
        match s.decryptFn recvResult.2 with
        | .error e => (.error e, [.sendRequest message, .recvReply])
        | .ok plain => (parse plain, [.sendRequest message, .recvReply])
      | none => (parse recvResult.2, [.sendRequest message, .recvReply])

/-- C6: `emit` on a Client whose `connected` flag is false throws
immediately — the result is the not-connected error and the transport
trace is empty: no envelope is sent and no receive is performed. -/
theorem client_emit_not_connected (st : ClientState)
    (parse : String → Except String Json) (dump : Json → String)
    (sendResult : Int) (recvResult : Int × String) (event : String)
    (data : Json) (hconn : st.connected = false) :
    Client.emit st parse dump sendResult recvResult event data =
      (.error "Client is not connected. Cant emit.", []) := by
  unfold Client.emit
  rw [if_pos hconn]

/-- Witness for C6 at a concrete disconnected client. -/
theorem client_emit_not_connected_witness :
    (ClientState.mk false none).connected = false ∧
    Client.emit ⟨false, none⟩ (fun _ => .error "unused") (fun _ => "") 0 (0, "")
        "ping" .null =
      (.error "Client is not connected. Cant emit.", []) :=
  ⟨rfl, client_emit_not_connected ⟨false, none⟩ (fun _ => .error "unused")
    (fun _ => "") 0 (0, "") "ping" .null rfl⟩

/-! ## Background receive loops (Client.cpp `Client::receiveLoop`,
Server.cpp `Server::receiveLoop`)

Both loops have the same control flow: blocking receive; `NNG_ECLOSED`
breaks the loop (clean termination); any other non-zero result is logged
and the loop continues; a successful receive is handed to
`handleMessage`/`handleRequest`.  The receive outcomes are an oracle
indexed by iteration; `fuel` bounds the number of iterations examined, and
the Boolean result records whether the loop exited via the "closed"
signal within that bound. -/

/-- The triage of one `nng_recv` return value as the loops perform it. -/
inductive RecvOutcome where
  | ok (msg : String)
  | closed
  | err (code : Int)
deriving DecidableEq

/-- Observable per-iteration effects of a receive loop. -/
inductive LoopEffect where
  | handled (msg : String)
  | logged (code : Int)
deriving DecidableEq

/-- The common receive-loop body: on `closed`, exit cleanly; on any other
error, log and continue; on success, dispatch the message and continue. -/
def receiveLoopRun (recv : Nat → RecvOutcome) :
    Nat → Nat → Bool × List LoopEffect
  | 0, _ => (false, [])
  | fuel + 1, i =>
    match recv i with
    | .closed => (true, [])
    | .err c =>
      let rest := receiveLoopRun recv fuel (i + 1)
      (rest.1, .logged c :: rest.2)
    | .ok m =>
      let rest := receiveLoopRun recv fuel (i + 1)
      (rest.1, .handled m :: rest.2)

/-- Embedding of `Client::receiveLoop` on the subscribe endpoint. -/
def Client.receiveLoop (recv : Nat → RecvOutcome) (fuel : Nat) :
    Bool × List LoopEffect :=
  receiveLoopRun recv fuel 0

/-- Embedding of `Server::receiveLoop` on the reply endpoint. -/
def Server.receiveLoop (recv : Nat → RecvOutcome) (fuel : Nat) :
    Bool × List LoopEffect :=
  receiveLoopRun recv fuel 0

/-- The effects of one non-terminating iteration. -/
def loopEffectOf : RecvOutcome → List LoopEffect
  | .ok m => [.handled m]
  | .closed => []
  | .err c => [.logged c]

/-- Closed form when no iteration within the bound observes "closed":
the loop never exits and every iteration contributes its effect. -/
theorem receiveLoopRun_no_closed (recv : Nat → RecvOutcome) :
    ∀ (fuel i : Nat), (∀ j, j < fuel → recv (i + j) ≠ .closed) →
    receiveLoopRun recv fuel i =
      (false, (List.range' i fuel).flatMap (fun j => loopEffectOf (recv j))) := by
  intro fuel
  induction fuel with
  | zero => intro i _; rfl
  | succ m ih =>
    intro i hnc
    have h0 : recv i ≠ .closed := by
      have := hnc 0 (by omega)
      simpa using this
    have ihr := ih (i + 1) (fun j hj => by
      have := hnc (j + 1) (by omega)
      rw [show i + 1 + j = i + (j + 1) by omega]
      exact this)
    rw [List.range'_succ, List.flatMap_cons]
    cases hr : recv i with
    | closed => exact absurd hr h0
    | err c => simp [receiveLoopRun, hr, ihr, loopEffectOf]
    | ok m => simp [receiveLoopRun, hr, ihr, loopEffectOf]

/-- Closed form when iteration `k` is the first to observe "closed": the
loop exits cleanly there, having logged every earlier error and dispatched
every earlier message. -/
theorem receiveLoopRun_closed_at (recv : Nat → RecvOutcome) :
    ∀ (k fuel i : Nat), k < fuel → recv (i + k) = .closed →
    (∀ j, j < k → recv (i + j) ≠ .closed) →
    receiveLoopRun recv fuel i =
      (true, (List.range' i k).flatMap (fun j => loopEffectOf (recv j))) := by
  intro k
  induction k with
  | zero =>
    intro fuel i hk hc _
    cases fuel with
    | zero => omega
    | succ m => simp at hc; simp [receiveLoopRun, hc]
  | succ n ih =>
    intro fuel i hk hc hnc
    cases fuel with
    | zero => omega
    | succ m =>
      have h0 : recv i ≠ .closed := by
        have := hnc 0 (by omega)
        simpa using this
      have ihr := ih m (i + 1) (by omega)
        (by rw [show i + 1 + n = i + (n + 1) by omega]; exact hc)
        (fun j hj => by
          have := hnc (j + 1) (by omega)
          rw [show i + 1 + j = i + (j + 1) by omega]
          exact this)
      rw [List.range'_succ, List.flatMap_cons]
      cases hr : recv i with
      | closed => exact absurd hr h0
      | err c => simp [receiveLoopRun, hr, ihr, loopEffectOf]
      | ok m2 => simp [receiveLoopRun, hr, ihr, loopEffectOf]

/-- Every non-"closed" iteration contributes exactly one trace entry. -/
theorem no_closed_trace_length (recv : Nat → RecvOutcome) :
    ∀ (n i : Nat), (∀ j, j < n → recv (i + j) ≠ .closed) →
    ((List.range' i n).flatMap (fun j => loopEffectOf (recv j))).length = n := by
  intro n
  induction n with
  | zero => intro i _; rfl
  | succ m ih =>
    intro i hnc
    have h0 : recv i ≠ .closed := by
      have := hnc 0 (by omega)
      simpa using this
    have ihr := ih (i + 1) (fun j hj => by
      have := hnc (j + 1) (by omega)
      rw [show i + 1 + j = i + (j + 1) by omega]
      exact this)
    rw [List.range'_succ, List.flatMap_cons, List.length_append, ihr]
    cases hr : recv i with
    | closed => exact absurd hr h0
    | err c => simp [loopEffectOf]; omega
    | ok m2 => simp [loopEffectOf]; omega

/-- C7: in both background receive loops, a "closed" receive result is
the only outcome that terminates the loop — the first "closed" (at
iteration `k`) makes the loop exit cleanly after logging every earlier
error and dispatching every earlier message; if no receive within the
bound returns "closed", the loop never exits and processes every
iteration (errors are logged and the loop continues). -/
theorem receive_loops_closed_is_only_exit (recv : Nat → RecvOutcome)
    (fuel k : Nat) :
    (k < fuel → recv k = .closed → (∀ j, j < k → recv j ≠ .closed) →
      Client.receiveLoop recv fuel =
        (true, (List.range' 0 k).flatMap (fun j => loopEffectOf (recv j))) ∧
      Server.receiveLoop recv fuel =
        (true, (List.range' 0 k).flatMap (fun j => loopEffectOf (recv j)))) ∧
    ((∀ j, j < fuel → recv j ≠ .closed) →
      (Client.receiveLoop recv fuel).1 = false ∧
      (Client.receiveLoop recv fuel).2.length = fuel ∧
      (Server.receiveLoop recv fuel).1 = false ∧
      (Server.receiveLoop recv fuel).2.length = fuel) := by
  constructor
  · intro hk hc hnc
    have h := receiveLoopRun_closed_at recv k fuel 0 hk (by simpa using hc)
      (fun j hj => by simpa using hnc j hj)
    exact ⟨h, h⟩
  · intro hnc
    have h := receiveLoopRun_no_closed recv fuel 0
      (fun j hj => by simpa using hnc j hj)
    have hl := no_closed_trace_length recv fuel 0
      (fun j hj => by simpa using hnc j hj)
    unfold Client.receiveLoop Server.receiveLoop
    rw [h]
    exact ⟨rfl, hl, rfl, hl⟩

/-- Witness for C7: a concrete outcome sequence with an error at
iteration 0, a message at 1, and "closed" at 2. -/
theorem receive_loops_closed_is_only_exit_witness :
    ((2 : Nat) < 5 ∧
      (fun i => if i = 0 then RecvOutcome.err 3
                else if i = 1 then RecvOutcome.ok "m"
                else RecvOutcome.closed) 2 = RecvOutcome.closed ∧
      Client.receiveLoop
        (fun i => if i = 0 then RecvOutcome.err 3
                  else if i = 1 then RecvOutcome.ok "m"
                  else RecvOutcome.closed) 5 =
        (true, [LoopEffect.logged 3, LoopEffect.handled "m"])) := by
  have h := (receive_loops_closed_is_only_exit
    (fun i => if i = 0 then RecvOutcome.err 3
              else if i = 1 then RecvOutcome.ok "m"
              else RecvOutcome.closed) 5 2).1 (by omega) (by simp)
    (by
      intro j hj
      interval_cases j <;> simp)
  refine ⟨by omega, by simp, ?_⟩
  rw [h.1]
  rfl

/-! ## Request serialization (Client.cpp, `Client::emit`, `reqMutex`)

`emit` holds the per-instance `reqMutex` for its whole send-then-receive
sequence, so at most one request can be in flight on the REQ endpoint.
Modelled as a transition system over thread phases: a thread acquires the
lock only when free, sends only while holding it, and releases it only
after receiving the reply.  Threads are identified by naturals. -/

/-- Where a caller thread is inside `Client::emit`'s critical section. -/
inductive EmitPhase where
  | idle
  | hasLock
  | inFlight
deriving DecidableEq

/-- Global state of one Client instance's emit serialization: the
`reqMutex` holder and each thread's phase. -/
structure EmitSystem where
  lockHolder : Option Nat
  phase : Nat → EmitPhase

/-- Initial state: lock free, no thread inside `emit`. -/
def initEmitSystem : EmitSystem := ⟨none, fun _ => .idle⟩

/-- Interleaving steps of concurrent `emit` calls: `acquire` takes the
free `reqMutex` (the `lock_guard` construction), `send` performs
`nng_send` while holding the lock (the request becomes in flight),
`recvRelease` performs the blocking `nng_recv` of the reply and releases
the lock at scope exit. -/
inductive EmitStep : EmitSystem → EmitSystem → Prop where
  | acquire (s : EmitSystem) (t : Nat) :
      s.lockHolder = none → s.phase t = .idle →
      EmitStep s ⟨some t, Function.update s.phase t .hasLock⟩
  | send (s : EmitSystem) (t : Nat) :
      s.lockHolder = some t → s.phase t = .hasLock →
      EmitStep s ⟨some t, Function.update s.phase t .inFlight⟩
  | recvRelease (s : EmitSystem) (t : Nat) :
      s.lockHolder = some t → s.phase t = .inFlight →
      EmitStep s ⟨none, Function.update s.phase t .idle⟩

/-- States reachable from the initial state by interleaved emit steps. -/
inductive EmitReachable : EmitSystem → Prop where
  | init : EmitReachable initEmitSystem
  | step {s s' : EmitSystem} :
      EmitReachable s → EmitStep s s' → EmitReachable s'

/-- Lock invariant: every thread inside the critical section (holding the
lock or with a request in flight) is the current lock holder. -/
theorem emit_lock_invariant (s : EmitSystem) (h : EmitReachable s) :
    ∀ t, s.phase t ≠ .idle → s.lockHolder = some t := by
  induction h with
  | init => intro t ht; exact absurd rfl ht
  | @step s0 s1 hr hs ih =>
    cases hs with
    | acquire t hfree hidle =>
      intro u hu
      by_cases htu : u = t
      · simp [htu]
      · have hph : Function.update s0.phase t EmitPhase.hasLock u = s0.phase u :=
          Function.update_noteq htu _ _
        simp only [hph] at hu
        have := ih u hu
        rw [this] at hfree
        exact absurd hfree (by simp)
    | send t hhold hlock =>
      intro u hu
      by_cases htu : u = t
      · simp [htu]
      · have hph : Function.update s0.phase t EmitPhase.inFlight u = s0.phase u :=
          Function.update_noteq htu _ _
        simp only [hph] at hu
        have := ih u hu
        rw [this] at hhold
        simp at hhold
        exact absurd hhold htu
    | recvRelease t hhold hfl =>
      intro u hu
      by_cases htu : u = t
      · subst htu
        have hid : Function.update s0.phase u EmitPhase.idle u = EmitPhase.idle :=
          Function.update_same _ _ _
        exact absurd hid hu
      · have hph : Function.update s0.phase t EmitPhase.idle u = s0.phase u :=
          Function.update_noteq htu _ _
        simp only [hph] at hu
        have := ih u hu
        rw [this] at hhold
        simp at hhold
        exact absurd hhold htu

/-- C8: however concurrent `emit` calls interleave on one Client, at most
one request is in flight on the request endpoint at any reachable state —
any two threads with a request in flight are the same thread, because the
whole send-then-receive sequence runs under the per-instance `reqMutex`. -/
theorem emit_single_request_in_flight (s : EmitSystem)
    (h : EmitReachable s) (t u : Nat)
    (ht : s.phase t = .inFlight) (hu : s.phase u = .inFlight) : t = u := by
  have h1 := emit_lock_invariant s h t (by simp [ht])
  have h2 := emit_lock_invariant s h u (by simp [hu])
  rw [h1] at h2
  simpa using h2

/-- Witness for C8: the state reached by thread 0 acquiring the lock and
sending is reachable and has thread 0's request in flight. -/
theorem emit_single_request_in_flight_witness :
    EmitReachable
      ⟨some 0, Function.update
        (Function.update (initEmitSystem.phase) 0 EmitPhase.hasLock)
        0 EmitPhase.inFlight⟩ ∧
    (Function.update
        (Function.update (initEmitSystem.phase) 0 EmitPhase.hasLock)
        0 EmitPhase.inFlight) 0 = EmitPhase.inFlight ∧
    (0 : Nat) = 0 := by
  have s1 : EmitReachable ⟨some 0,
      Function.update (initEmitSystem.phase) 0 EmitPhase.hasLock⟩ :=
    EmitReachable.step EmitReachable.init
      (EmitStep.acquire initEmitSystem 0 rfl rfl)
  have hlk : (⟨some 0, Function.update (initEmitSystem.phase) 0
      EmitPhase.hasLock⟩ : EmitSystem).phase 0 = EmitPhase.hasLock := by
    simp
  have s2 : EmitReachable ⟨some 0,
      Function.update (Function.update (initEmitSystem.phase) 0
        EmitPhase.hasLock) 0 EmitPhase.inFlight⟩ :=
    EmitReachable.step s1
      (EmitStep.send _ 0 rfl hlk)
  have hfl : (Function.update
      (Function.update (initEmitSystem.phase) 0 EmitPhase.hasLock)
      0 EmitPhase.inFlight) 0 = EmitPhase.inFlight := by simp
  exact ⟨s2, hfl, emit_single_request_in_flight _ s2 0 0 hfl hfl⟩

/-! ## Compromise-callback installation order (Client.cpp
`Client::setOnCompromisedCallback`, Server.cpp
`Server::setOnCompromisedCallback`)

Both methods forward the callback to the current encryption strategy and
do nothing when no strategy is set; the callback is not stored on the
Client/Server itself.  Callbacks are identified by naturals so that "the
strategy received that callback" is expressible. -/

/-- An encryption-strategy object as seen by the callback plumbing: its
installed on-compromise callback, if any. -/
structure StrategyObj where
  onCompromisedCallback : Option Nat
deriving DecidableEq

/-- The Client/Server state relevant to callback installation: the
optional shared encryption strategy. -/
structure PeerState where
  encryptionStrategy : Option StrategyObj
deriving DecidableEq

/-- Embedding of `setOnCompromisedCallback` (identical in Client and Server): forward
to the strategy if one is set, otherwise do nothing. -/
def setOnCompromisedCallback (st : PeerState) (cb : Nat) : PeerState :=
  match st.encryptionStrategy with
  | some s =>
      let s2 : StrategyObj := { s with onCompromisedCallback := some cb }
      { st with encryptionStrategy := some s2 }
  | none => st

/-- Embedding of `setEncryptionStrategy`: install (replace) the strategy object. -/
def setEncryptionStrategy (st : PeerState) (strat : StrategyObj) : PeerState :=
  { st with encryptionStrategy := some strat }

/-- C9: `setOnCompromisedCallback` on a Client or Server with no
encryption strategy is a silent no-op — the state is unchanged and the
callback is stored nowhere — and a strategy installed later does not
receive that callback: the callback only takes effect when set after the
strategy. -/
theorem setOnCompromisedCallback_no_strategy_noop (st : PeerState) (cb : Nat)
    (strat : StrategyObj) (hnone : st.encryptionStrategy = none) :
    setOnCompromisedCallback st cb = st ∧
    setEncryptionStrategy (setOnCompromisedCallback st cb) strat =
      setEncryptionStrategy st strat ∧
    (setEncryptionStrategy (setOnCompromisedCallback st cb)
        strat).encryptionStrategy = some strat ∧
    (setOnCompromisedCallback (setEncryptionStrategy st strat)
        cb).encryptionStrategy =
      some { strat with onCompromisedCallback := some cb } := by
  have hnoop : setOnCompromisedCallback st cb = st := by
    unfold setOnCompromisedCallback
    rw [hnone]
  refine ⟨hnoop, by rw [hnoop], by rw [hnoop]; rfl, ?_⟩
  unfold setOnCompromisedCallback setEncryptionStrategy
  rfl

/-- Witness for C9 at a concrete strategy-less state. -/
theorem setOnCompromisedCallback_no_strategy_noop_witness :
    (PeerState.mk none).encryptionStrategy = none ∧
    setOnCompromisedCallback ⟨none⟩ 7 = ⟨none⟩ ∧
    (setEncryptionStrategy (setOnCompromisedCallback ⟨none⟩ 7)
        ⟨none⟩).encryptionStrategy = some ⟨none⟩ ∧
    (setOnCompromisedCallback (setEncryptionStrategy ⟨none⟩ ⟨none⟩)
        7).encryptionStrategy = some ⟨some 7⟩ := by
  have h := setOnCompromisedCallback_no_strategy_noop ⟨none⟩ 7 ⟨none⟩ rfl
  exact ⟨rfl, h.1, h.2.2.1, h.2.2.2⟩

end EasyIPC
